import Mathlib

/-!
Verification of the books catalog service: a shallow embedding of the
MySQL-backed `BookRepository` (src/books/mysql/book.go), the orchestrating
`BookService` (src/books), and the HTTP controller's pagination logic
(`BookController.GetAll`), together with proofs about the properties the
specification states.

Modelling choices:
- Timestamps (`time.Time`) are modelled as `Nat` instants; the Go zero value
  of `time.Time` (`IsZero`) corresponds to `0`.  UTC is implicit.
- `int64` / `int` values are modelled as `Int` (no claim involves overflow of
  ids or pagination arithmetic; string-to-int parsing models Go's
  `strconv.Atoi` range check explicitly).
- The database table is a list of rows plus the AUTO_INCREMENT counter.
  The MySQL unique key `UQ_books_title_author_isbn` from
  migrations/001_create_books_table.sql ranges over *all* rows (the key does
  not mention `deletedAt`), so duplicate detection looks at every row.
- The Redis cache is an oracle: the outcome each `Get` would produce.  The
  service never observes `Set`/`Delete` outcomes (fire-and-forget), so the
  oracle only models `Get`; the calls a service operation issues to its
  collaborators are recorded in an ordered trace.
-/

namespace Books

/-- The catalog record (`books.Book`, src/books model).  `deletedAt = none`
means the row is active. -/
structure Book where
  id : Int
  title : String
  author : String
  isbn : String
  description : String
  publishedAt : Nat
  createdAt : Nat
  updatedAt : Nat
  deletedAt : Option Nat
deriving Repr, DecidableEq

/-- The `books` table: its rows plus the AUTO_INCREMENT counter. -/
structure Db where
  rows : List Book
  nextId : Int
deriving Repr, DecidableEq

/-- The initial, empty database (AUTO_INCREMENT starts at 1). -/
def Db.empty : Db := { rows := [], nextId := 1 }

/-- Error kinds observable by callers (src/books/errors.go plus the cache
package's miss error and the opaque failure classes). -/
inductive Err where
  | bookNotFound
  | bookAlreadyExists
  | invalidBookData
  | storageFailure
  | cacheMiss
  | cacheFailure
deriving Repr, DecidableEq

/-- Whether two books agree on the `(title, author, isbn)` triple covered by
the MySQL unique key `UQ_books_title_author_isbn`. -/
def sameTriple (a b : Book) : Bool :=
  a.title == b.title && a.author == b.author && a.isbn == b.isbn

/-- Whether a row is active and (as in the SQL built by
`BookRepository.GetAll`) passes the optional author filter: the
`AND author = ?` clause is added only when the pointer is non-nil and points
to a non-empty string. -/
def matchesFilter (author : Option String) (r : Book) : Bool :=
  r.deletedAt.isNone &&
    (match author with
     | some a => if a = "" then true else r.author == a
     | none => true)

/-- Insert a book into a list sorted by ascending id (helper for `ORDER BY
id ASC`). -/
def insertById (b : Book) : List Book → List Book
  | [] => [b]
  | x :: xs => if b.id ≤ x.id then b :: x :: xs else x :: insertById b xs

/-- Sort rows by ascending id (`ORDER BY id ASC`). -/
def sortById : List Book → List Book
  | [] => []
  | x :: xs => insertById x (sortById xs)

namespace BookRepository

/-- `BookRepository.Create`: INSERT of title/author/isbn/description/
publishedAt/createdAt/updatedAt (NOT deletedAt — the stored row is active);
MySQL rejects the insert with error 1062 when some existing row carries the
same `(title, author, isbn)` triple, which the Go code maps to
`ErrBookAlreadyExists`; otherwise the auto-increment id is assigned and the
input struct, with that id set, is returned. -/
def create (db : Db) (book : Book) : Except Err (Book × Db) :=
  if db.rows.any (fun r => sameTriple r book) then
    .error .bookAlreadyExists
  else
    let row := { book with id := db.nextId, deletedAt := none }
    .ok ({ book with id := db.nextId },
         { rows := db.rows ++ [row], nextId := db.nextId + 1 })

/-- `BookRepository.GetByID`: `SELECT ... WHERE id = ? AND deletedAt IS
NULL`; `sql.ErrNoRows` becomes `ErrBookNotFound`. -/
def getByID (db : Db) (id : Int) : Except Err Book :=
  match db.rows.find? (fun r => r.id == id && r.deletedAt.isNone) with
  | some b => .ok b
  | none => .error .bookNotFound

/-- `BookRepository.GetAll`: active rows, optional exact author filter,
`ORDER BY id ASC`; `LIMIT ?` is appended only when `limit > 0` and
`OFFSET ?` only when additionally `offset > 0`. -/
def getAll (db : Db) (author : Option String) (limit offset : Int) :
    List Book :=
  let m := sortById (db.rows.filter (matchesFilter author))
  if limit > 0 then
    if offset > 0 then (m.drop offset.toNat).take limit.toNat
    else m.take limit.toNat
  else m

/-- The fields of a stored row that `BookRepository.Update`'s UPDATE
statement overwrites (title, author, isbn, description, publishedAt,
updatedAt), applied to the rows matching `WHERE id = :id AND deletedAt IS
NULL`. -/
def applyUpdate (id : Int) (book : Book) (r : Book) : Book :=
  if r.id == id && r.deletedAt.isNone then
    { r with title := book.title, author := book.author, isbn := book.isbn,
             description := book.description,
             publishedAt := book.publishedAt, updatedAt := book.updatedAt }
  else r

/-- `BookRepository.Update`: first `GetByID` (NotFound when absent or
soft-deleted), then the UPDATE; a 1062 duplicate-key violation of
`UQ_books_title_author_isbn` — the new triple colliding with any *other*
row — is mapped to `ErrBookAlreadyExists`.  The returned book is the fetched
row with the six updated fields overwritten. -/
def update (db : Db) (id : Int) (book : Book) : Except Err (Book × Db) :=
  match getByID db id with
  | .error e => .error e
  | .ok existing =>
    if db.rows.any (fun r => !(r.id == id) && sameTriple r book) then
      .error .bookAlreadyExists
    else
      .ok ({ existing with title := book.title, author := book.author,
                           isbn := book.isbn,
                           description := book.description,
                           publishedAt := book.publishedAt,
                           updatedAt := book.updatedAt },
           { db with rows := db.rows.map (applyUpdate id book) })

/-- `BookRepository.Delete`: first `GetByID` (NotFound when absent or
soft-deleted), then `UPDATE books SET deletedAt = :now WHERE id = :id AND
deletedAt IS NULL`. -/
def delete (db : Db) (id : Int) (now : Nat) : Except Err Db :=
  match getByID db id with
  | .error e => .error e
  | .ok _ =>
    .ok { db with rows := db.rows.map (fun r =>
            if r.id == id && r.deletedAt.isNone then
              { r with deletedAt := some now }
            else r) }

end BookRepository

/-- `getByIDCacheKey` (src/books): `fmt.Sprintf("books:books:getbyid:%d", id)`. -/
def getByIDCacheKey (id : Int) : String :=
  "books:books:getbyid:" ++ toString id

/-- `getAllCacheKey` (src/books): the author-specific key only when the
pointer is non-nil and points to a non-empty string. -/
def getAllCacheKey (author : Option String) : String :=
  match author with
  | some a => if a = "" then "books:books:getall:all"
              else "books:books:getall:author:" ++ a
  | none => "books:books:getall:all"

/-- The outcome each `Cache.Get` would produce, per key: `.ok` is a hit with
a deserialized value, `.error` is a miss, connection failure, or
deserialization failure (the Go service only distinguishes `err == nil`).
`getBook` answers `Get`s deserialized into a `Book`, `getList` those
deserialized into a `[]Book`. -/
structure CacheOracle where
  getBook : String → Except Err Book
  getList : String → Except Err (List Book)

/-- One call to a collaborator (Repository or Cache), as issued by the
service; `cSet` and `cDelete` are the fire-and-forget background calls. -/
inductive Call where
  | rCreate (b : Book)
  | rGetByID (id : Int)
  | rGetAll (author : Option String) (limit offset : Int)
  | rUpdate (id : Int) (b : Book)
  | rDelete (id : Int)
  | cGet (key : String)
  | cSet (key : String)
  | cDelete (key : String)
deriving Repr, DecidableEq

/-- The cache keys a trace deletes (the invalidations a run of the service
issues). -/
def cacheDeletes (calls : List Call) : List String :=
  calls.filterMap (fun c => match c with | .cDelete k => some k | _ => none)

namespace BookService

open BookRepository

/-- `BookService.Create`: stamps `createdAt`/`updatedAt` with the current
UTC instant (overwriting whatever the input carried), calls
`Repository.Create`, and on success fires a background delete of the
unfiltered all-books cache key (only when a cache is configured).  No
title/author validation happens here. -/
def create (cache : Option CacheOracle) (now : Nat) (db : Db) (book : Book) :
    Except Err Book × Db × List Call :=
  let b := { book with createdAt := now, updatedAt := now }
  match BookRepository.create db b with
  | .ok (created, db') =>
    (.ok created, db',
      [.rCreate b] ++
        (if cache.isSome then [.cDelete (getAllCacheKey none)] else []))
  | .error e => (.error e, db, [.rCreate b])

/-- `BookService.GetByID`: cache-aside read.  When a cache is configured,
`Get` under the id key; a hit is returned without touching the Repository;
on miss/failure fall through to `Repository.GetByID` and, on success, fire a
background `Set`. -/
def getByID (cache : Option CacheOracle) (db : Db) (id : Int) :
    Except Err Book × Db × List Call :=
  let key := getByIDCacheKey id
  match cache with
  | some c =>
    match c.getBook key with
    | .ok b => (.ok b, db, [.cGet key])
    | .error _ =>
      match BookRepository.getByID db id with
      | .ok b => (.ok b, db, [.cGet key, .rGetByID id, .cSet key])
      | .error e => (.error e, db, [.cGet key, .rGetByID id])
  | none =>
    match BookRepository.getByID db id with
    | .ok b => (.ok b, db, [.rGetByID id])
    | .error e => (.error e, db, [.rGetByID id])

/-- `BookService.GetAll`: the cache is consulted (and populated) only when a
cache is configured and the request is unpaginated (`limit == 0 && offset ==
0`); paginated requests always go to the Repository and are never cached. -/
def getAll (cache : Option CacheOracle) (db : Db) (author : Option String)
    (limit offset : Int) : Except Err (List Book) × Db × List Call :=
  let key := getAllCacheKey author
  match cache with
  | some c =>
    if limit = 0 && offset = 0 then
      match c.getList key with
      | .ok bs => (.ok bs, db, [.cGet key])
      | .error _ =>
        (.ok (BookRepository.getAll db author limit offset), db,
         [.cGet key, .rGetAll author limit offset, .cSet key])
    else
      (.ok (BookRepository.getAll db author limit offset), db,
       [.rGetAll author limit offset])
  | none =>
    (.ok (BookRepository.getAll db author limit offset), db,
     [.rGetAll author limit offset])

/-- `BookService.Update`: rejects an empty title or author with
`ErrInvalidBookData` before any collaborator call; stamps `updatedAt := now`
and defaults a zero `publishedAt` to now; on Repository success fires
background deletes of the id key and the unfiltered all-books key. -/
def update (cache : Option CacheOracle) (now : Nat) (db : Db) (id : Int)
    (book : Book) : Except Err Book × Db × List Call :=
  if book.title = "" then (.error .invalidBookData, db, [])
  else if book.author = "" then (.error .invalidBookData, db, [])
  else
    match BookRepository.update db id { book with updatedAt := now, publishedAt := if book.publishedAt = 0 then now else book.publishedAt } with
    | .ok (updated, db') =>
      (.ok updated, db',
        [.rUpdate id { book with updatedAt := now, publishedAt := if book.publishedAt = 0 then now else book.publishedAt }] ++
          (if cache.isSome then
            [.cDelete (getByIDCacheKey id), .cDelete (getAllCacheKey none)]
          else []))
    | .error e =>
      (.error e, db,
        [.rUpdate id { book with updatedAt := now, publishedAt := if book.publishedAt = 0 then now else book.publishedAt }])

/-- `BookService.Delete`: delegates to `Repository.Delete`; on success fires
background deletes of the id key and the unfiltered all-books key. -/
def delete (cache : Option CacheOracle) (db : Db) (id : Int) (now : Nat) :
    Except Err Unit × Db × List Call :=
  match BookRepository.delete db id now with
  | .ok db' =>
    (.ok (), db',
      [.rDelete id] ++
        (if cache.isSome then
          [.cDelete (getByIDCacheKey id), .cDelete (getAllCacheKey none)]
        else []))
  | .error e => (.error e, db, [.rDelete id])

end BookService

/-- Numeric value of a digit string (most significant first). -/
def digitsVal (l : List Char) : Nat :=
  l.foldl (fun acc c => acc * 10 + (c.toNat - 48)) 0

/-- Digit run to `Int`, with Go's 64-bit `strconv.ParseInt` range check:
out-of-range input is a parse error (`ErrRange`), hence `none`. -/
def parseDigits (l : List Char) (neg : Bool) : Option Int :=
  if l = [] then none
  else if l.all Char.isDigit then
    let n := digitsVal l
    if neg then
      if n ≤ 2 ^ 63 then some (-(n : Int)) else none
    else
      if n ≤ 2 ^ 63 - 1 then some (n : Int) else none
  else none

/-- `strconv.Atoi`: optional single leading sign, then one or more decimal
digits, nothing else; errors (here `none`) on anything else, including
overflow of a 64-bit int. -/
def atoi (s : String) : Option Int :=
  match s.data with
  | [] => none
  | c :: rest =>
    if c = '+' then parseDigits rest false
    else if c = '-' then parseDigits rest true
    else parseDigits (c :: rest) false

/-- The controller's handling of the `page`/`limit` query parameters
(`BookController.GetAll`): a parameter counts only when present, numeric,
and strictly positive; everything else is silently ignored. -/
def parseQueryPositive (s : String) : Option Int :=
  if s = "" then none
  else
    match atoi s with
    | some n => if n > 0 then some n else none
    | none => none

namespace BookController

/-- `BookController.GetAll` (src/unnamed/part_004): reads the `author`,
`page` and `limit` query parameters (as raw strings), derives `limit` and
`offset` (`offset = (page-1)*limit` only when both are recognized), calls
the service, and echoes back only the recognized pagination metadata.
Returns (books, echoed page, echoed limit). -/
def getAll (cache : Option CacheOracle) (db : Db)
    (authorQ pageQ limitQ : String) :
    Except Err (List Book × Option Int × Option Int) :=
  let authorPtr := if authorQ = "" then none else some authorQ
  let pageO := parseQueryPositive pageQ
  let limitO := parseQueryPositive limitQ
  let limit := limitO.getD 0
  let offset :=
    match limitO, pageO with
    | some l, some p => (p - 1) * l
    | _, _ => 0
  match (BookService.getAll cache db authorPtr limit offset).1 with
  | .ok books =>
    .ok (books,
      (match limitO, pageO with | some _, some p => some p | _, _ => none),
      limitO)
  | .error e => .error e

end BookController

/-- One service operation together with the cache configuration and the
`time.Now()` instant it runs under. -/
inductive Op where
  | create (cache : Option CacheOracle) (now : Nat) (b : Book)
  | getById (cache : Option CacheOracle) (id : Int)
  | getAll (cache : Option CacheOracle) (author : Option String)
      (limit offset : Int)
  | update (cache : Option CacheOracle) (now : Nat) (id : Int) (b : Book)
  | delete (cache : Option CacheOracle) (now : Nat) (id : Int)

/-- The database state after one service operation. -/
def stepDb (db : Db) : Op → Db
  | .create c now b => (BookService.create c now db b).2.1
  | .getById c id => (BookService.getByID c db id).2.1
  | .getAll c a l o => (BookService.getAll c db a l o).2.1
  | .update c now id b => (BookService.update c now db id b).2.1
  | .delete c now id => (BookService.delete c db id now).2.1

/-- The database state after a sequence of service operations. -/
def runOps (db : Db) (ops : List Op) : Db :=
  ops.foldl stepDb db

/-! ## Helper lemmas -/

instance {ε α : Type} [DecidableEq ε] [DecidableEq α] :
    DecidableEq (Except ε α) := fun x y =>
  match x, y with
  | .ok a, .ok b => decidable_of_iff (a = b) (by simp)
  | .error a, .error b => decidable_of_iff (a = b) (by simp)
  | .ok _, .error _ => isFalse (by simp)
  | .error _, .ok _ => isFalse (by simp)

/-- The `(title, author, isbn)` triple is untouched when the service stamps
the timestamps on a `Create` input. -/
theorem sameTriple_stamp (r book : Book) (now : Nat) :
    sameTriple r { book with createdAt := now, updatedAt := now }
      = sameTriple r book := rfl

/-- A fixed book used in concrete counterexamples and witnesses. -/
def bookTAI : Book :=
  { id := 0, title := "T", author := "A", isbn := "I", description := "D",
    publishedAt := 1, createdAt := 0, updatedAt := 0, deletedAt := none }

/-- A store holding only a soft-deleted row that carries `bookTAI`'s
`(title, author, isbn)` triple. -/
def dbDeletedTAI : Db :=
  { rows := [{ bookTAI with id := 1, deletedAt := some 10 }], nextId := 2 }

/-! ## C10 — empty-string author filter behaves as no filter -/

/-- C10: for every limit and offset, `GetAll` with an author pointer to the
empty string returns the same result, leaves the same state, and derives the
same cache key as `GetAll` with no author filter, both in the repository
query and in cache key derivation. -/
theorem getAll_empty_author_filter (cache : Option CacheOracle) (db : Db)
    (limit offset : Int) :
    (BookService.getAll cache db (some "") limit offset).1
        = (BookService.getAll cache db none limit offset).1 ∧
    (BookService.getAll cache db (some "") limit offset).2.1
        = (BookService.getAll cache db none limit offset).2.1 ∧
    getAllCacheKey (some "") = getAllCacheKey none ∧
    BookRepository.getAll db (some "") limit offset
        = BookRepository.getAll db none limit offset := by
  have hf : matchesFilter (some "") = matchesFilter none := by
    funext r; simp [matchesFilter]
  have hk : getAllCacheKey (some "") = getAllCacheKey none := by
    simp [getAllCacheKey]
  have hr : BookRepository.getAll db (some "") limit offset
      = BookRepository.getAll db none limit offset := by
    simp only [BookRepository.getAll, hf]
  refine ⟨?_, ?_, hk, hr⟩ <;>
  · cases cache with
    | none => simp [BookService.getAll, hr]
    | some c =>
      simp only [BookService.getAll, hk, hr]
      by_cases hc : limit = 0 ∧ offset = 0
      · cases hg : c.getList (getAllCacheKey none) <;>
          simp [hc.1, hc.2, hg]
      · rw [if_neg (by simpa using hc), if_neg (by simpa using hc)]

/-! ## C4 — GetByID on absent or soft-deleted ids fails with NotFound -/

/-- C4: for every id that no active row carries (absent from storage or
soft-deleted), both `BookRepository.GetByID` and `BookService.GetByID` fail
with NotFound. -/
theorem getByID_notFound (db : Db) (id : Int)
    (h : ∀ r ∈ db.rows, r.id = id → r.deletedAt ≠ none) :
    BookRepository.getByID db id = .error .bookNotFound ∧
    (BookService.getByID none db id).1 = .error .bookNotFound := by
  have hfind : db.rows.find? (fun r => r.id == id && r.deletedAt.isNone)
      = none := by
    rw [List.find?_eq_none]
    intro r hr
    simp only [Bool.and_eq_true, beq_iff_eq, Option.isNone_iff_eq_none, not_and]
    intro hid
    exact fun hdel => h r hr hid hdel
  have hrepo : BookRepository.getByID db id = .error .bookNotFound := by
    simp [BookRepository.getByID, hfind]
  exact ⟨hrepo, by simp [BookService.getByID, hrepo]⟩

/-- C4 witness: a store whose only row with id 1 is soft-deleted, and id 2 is
absent; both lookups fail with NotFound. -/
theorem getByID_notFound_witness :
    ((∀ r ∈ dbDeletedTAI.rows, r.id = 1 → r.deletedAt ≠ none) ∧
      BookRepository.getByID dbDeletedTAI 1 = .error .bookNotFound ∧
      (BookService.getByID none dbDeletedTAI 1).1 = .error .bookNotFound) ∧
    (BookRepository.getByID dbDeletedTAI 2 = .error .bookNotFound ∧
      (BookService.getByID none dbDeletedTAI 2).1 = .error .bookNotFound) :=
  ⟨⟨by decide, getByID_notFound dbDeletedTAI 1 (by decide)⟩,
    getByID_notFound dbDeletedTAI 2 (by decide)⟩

/-! ## C2 — service-level validation of empty title / author -/

/-- A Create input with an empty title (all other fields well-formed). -/
def emptyTitleBook : Book :=
  { id := 0, title := "", author := "A", isbn := "I", description := "D",
    publishedAt := 1, createdAt := 9, updatedAt := 9, deletedAt := none }

/-- C2 counterexample: `BookService.Create` called with an empty title does
NOT fail with InvalidData — it reaches the Repository (a collaborator call
is recorded and the store changes), refuting the claim for Create. -/
theorem create_empty_title_not_validated :
    (BookService.create none 3 Db.empty emptyTitleBook).1
        ≠ .error .invalidBookData ∧
    (BookService.create none 3 Db.empty emptyTitleBook).2.2 ≠ [] ∧
    (BookService.create none 3 Db.empty emptyTitleBook).2.1 ≠ Db.empty := by
  decide

/-- C2 amended: `BookService.Update` with an empty title or author fails
with InvalidData, makes zero collaborator calls and leaves the store
unchanged; `BookService.Create` performs no such validation — it always
issues the Repository call (first in its trace) whatever the title and
author. -/
theorem update_validation_create_none (cache : Option CacheOracle)
    (now : Nat) (db : Db) (id : Int) (book : Book)
    (h : book.title = "" ∨ book.author = "") :
    BookService.update cache now db id book
        = (.error .invalidBookData, db, []) ∧
    (BookService.create cache now db book).2.2.head?
        = some (.rCreate { book with createdAt := now, updatedAt := now }) := by
  constructor
  · rcases h with h | h
    · simp [BookService.update, h]
    · by_cases ht : book.title = "" <;> simp [BookService.update, ht, h]
  · rcases hc : BookRepository.create db
        { book with createdAt := now, updatedAt := now } with e | p <;>
      simp [BookService.create, hc]

/-- C2 witness: updating with an empty title fails with InvalidData and an
empty collaborator trace, while creating the same book issues the
Repository call. -/
theorem update_validation_create_none_witness :
    BookService.update none 3 Db.empty 1 emptyTitleBook
        = (.error .invalidBookData, Db.empty, []) ∧
    (BookService.create none 3 Db.empty emptyTitleBook).2.2.head?
        = some (.rCreate
            { emptyTitleBook with createdAt := 3, updatedAt := 3 }) :=
  update_validation_create_none none 3 Db.empty 1 emptyTitleBook
    (Or.inl (by decide))

/-! ## C1 — uniqueness scope of the (title, author, isbn) key -/

/-- C1 counterexample: the unique key `UQ_books_title_author_isbn` ranges
over all rows, so a soft-deleted row carrying the triple DOES block creation
of a new active entity with the same triple — refuting the claim that
uniqueness is enforced only among active rows. -/
theorem create_blocked_by_deleted_row :
    (BookService.create none 5 dbDeletedTAI bookTAI).1
        = .error .bookAlreadyExists ∧
    (BookService.create none 5 dbDeletedTAI bookTAI).2.1 = dbDeletedTAI := by
  decide

/-- C1 amended: creating an entity whose `(title, author, isbn)` triple
equals that of ANY existing row — active or soft-deleted — fails with
AlreadyExists and leaves the prior state unchanged; when no row at all
carries the triple, creation succeeds. -/
theorem create_uniqueness_all_rows (cache : Option CacheOracle) (now : Nat)
    (db : Db) (book : Book) :
    ((∃ r ∈ db.rows, sameTriple r book = true) →
      (BookService.create cache now db book).1 = .error .bookAlreadyExists ∧
      (BookService.create cache now db book).2.1 = db) ∧
    ((∀ r ∈ db.rows, sameTriple r book = false) →
      ∃ created db' calls,
        BookService.create cache now db book = (.ok created, db', calls)) := by
  constructor
  · rintro ⟨r, hr, htr⟩
    have hany : db.rows.any
        (fun r => sameTriple r { book with createdAt := now, updatedAt := now })
          = true :=
      List.any_eq_true.mpr ⟨r, hr, by rw [sameTriple_stamp]; exact htr⟩
    simp [BookService.create, BookRepository.create, hany]
  · intro h
    have hany : db.rows.any
        (fun r => sameTriple r { book with createdAt := now, updatedAt := now })
          = false :=
      List.any_eq_false.mpr (fun r hr => by
        rw [sameTriple_stamp]
        exact fun ht => absurd ht (by simp [h r hr]))
    refine ⟨{ book with id := db.nextId, createdAt := now, updatedAt := now },
      ({ rows := db.rows ++ [{ book with id := db.nextId, createdAt := now, updatedAt := now, deletedAt := none }],
         nextId := db.nextId + 1 } : Db),
      [.rCreate { book with createdAt := now, updatedAt := now }] ++
        (if cache.isSome then [.cDelete (getAllCacheKey none)] else []), ?_⟩
    simp [BookService.create, BookRepository.create, hany]

/-- C1 witness: the triple held by a soft-deleted row blocks creation and
leaves the state unchanged, while a fresh triple is created successfully. -/
theorem create_uniqueness_all_rows_witness :
    ((BookService.create none 5 dbDeletedTAI bookTAI).1
        = .error .bookAlreadyExists ∧
      (BookService.create none 5 dbDeletedTAI bookTAI).2.1 = dbDeletedTAI) ∧
    (∃ created db' calls,
      BookService.create none 5 Db.empty bookTAI
        = (.ok created, db', calls)) :=
  ⟨(create_uniqueness_all_rows none 5 dbDeletedTAI bookTAI).1
      ⟨{ bookTAI with id := 1, deletedAt := some 10 }, by decide, by decide⟩,
    (create_uniqueness_all_rows none 5 Db.empty bookTAI).2 (by decide)⟩

/-! ## C7 — Create stamps timestamps; read-back of a created entity -/

/-- When no existing row carries the input's `(title, author, isbn)` triple,
`BookService.Create` succeeds with the fully determined outcome: id from the
counter, both timestamps stamped to now, the stored row active. -/
theorem create_ok (cache : Option CacheOracle) (now : Nat) (db : Db)
    (book : Book) (huniq : ∀ r ∈ db.rows, sameTriple r book = false) :
    BookService.create cache now db book =
      (.ok { book with id := db.nextId, createdAt := now, updatedAt := now },
       { rows := db.rows ++ [{ book with id := db.nextId, createdAt := now, updatedAt := now, deletedAt := none }],
         nextId := db.nextId + 1 },
       [.rCreate { book with createdAt := now, updatedAt := now }] ++
         (if cache.isSome then [.cDelete (getAllCacheKey none)] else [])) := by
  have hany : db.rows.any
      (fun r => sameTriple r { book with createdAt := now, updatedAt := now })
        = false :=
    List.any_eq_false.mpr (fun r hr => by
      rw [sameTriple_stamp]
      exact fun ht => absurd ht (by simp [huniq r hr]))
  simp [BookService.create, BookRepository.create, hany]

/-- C7 counterexample: a Create input carrying a `deletedAt` value (with
non-empty title and author and a fresh triple) is returned by Create with
that `deletedAt` intact, while the stored row is active — so the immediate
GetByID read-back is NOT identical to the entity Create returned. -/
theorem create_readback_mismatch :
    bookTAI.title ≠ "" ∧ bookTAI.author ≠ "" ∧
    (BookService.create none 7 Db.empty { bookTAI with createdAt := 99, updatedAt := 98, deletedAt := some 5 }).1
        = .ok { bookTAI with id := 1, createdAt := 7, updatedAt := 7, deletedAt := some 5 } ∧
    (BookService.getByID none (BookService.create none 7 Db.empty { bookTAI with createdAt := 99, updatedAt := 98, deletedAt := some 5 }).2.1 1).1
        = .ok { bookTAI with id := 1, createdAt := 7, updatedAt := 7, deletedAt := none } ∧
    (BookService.getByID none (BookService.create none 7 Db.empty { bookTAI with createdAt := 99, updatedAt := 98, deletedAt := some 5 }).2.1 1).1
        ≠ .ok { bookTAI with id := 1, createdAt := 7, updatedAt := 7, deletedAt := some 5 } := by
  decide

/-- C7 amended: for every Create call with non-empty title and author, a
`(title, author, isbn)` triple no existing row carries, and (as forced by
the counterexample) an input whose `deletedAt` is absent, run against a
well-formed store (ids below the auto-increment counter): the service
assigns `createdAt` and `updatedAt` itself (both equal to now, whatever
timestamps the input carried), and an immediate GetByID on the returned id
yields a record identical to the one Create returned. -/
theorem create_then_getByID (cache : Option CacheOracle) (now : Nat)
    (db : Db) (book : Book)
    (hwf : ∀ r ∈ db.rows, r.id < db.nextId)
    (htitle : book.title ≠ "") (hauthor : book.author ≠ "")
    (hdel : book.deletedAt = none)
    (huniq : ∀ r ∈ db.rows, sameTriple r book = false) :
    ∃ created db' calls,
      BookService.create cache now db book = (.ok created, db', calls) ∧
      created.createdAt = now ∧ created.updatedAt = now ∧
      created = { book with id := db.nextId, createdAt := now, updatedAt := now } ∧
      (BookService.getByID none db' created.id).1 = .ok created := by
  refine ⟨{ book with id := db.nextId, createdAt := now, updatedAt := now },
    _, _, create_ok cache now db book huniq, rfl, rfl, rfl, ?_⟩
  have hrow : ({ book with id := db.nextId, createdAt := now, updatedAt := now, deletedAt := none } : Book)
      = { book with id := db.nextId, createdAt := now, updatedAt := now } := by
    cases book
    simp only at hdel
    simp [hdel]
  have hfind1 : db.rows.find?
      (fun r => r.id == db.nextId && r.deletedAt.isNone) = none :=
    List.find?_eq_none.mpr (fun r hr => by
      simp only [Bool.and_eq_true, beq_iff_eq, not_and]
      intro hid
      exact absurd hid (Int.ne_of_lt (hwf r hr)))
  have hrepo : BookRepository.getByID
      ({ rows := db.rows ++ [{ book with id := db.nextId, createdAt := now, updatedAt := now, deletedAt := none }],
         nextId := db.nextId + 1 } : Db) db.nextId
      = .ok { book with id := db.nextId, createdAt := now, updatedAt := now } := by
    rw [BookRepository.getByID]
    simp only [List.find?_append, hfind1, Option.none_or]
    rw [List.find?_cons_of_pos _ (by simp)]
    rw [hrow]
  simp [BookService.getByID, hrepo]

/-- C7 witness: creating `bookTAI` (junk input timestamps, no `deletedAt`)
in the empty store stamps both timestamps and reads back identically. -/
theorem create_then_getByID_witness :
    ∃ created db' calls,
      BookService.create none 7 Db.empty { bookTAI with createdAt := 99, updatedAt := 98 }
          = (.ok created, db', calls) ∧
      created.createdAt = 7 ∧ created.updatedAt = 7 ∧
      created = { bookTAI with id := 1, createdAt := 7, updatedAt := 7 } ∧
      (BookService.getByID none db' created.id).1 = .ok created :=
  create_then_getByID none 7 Db.empty
    { bookTAI with createdAt := 99, updatedAt := 98 }
    (by decide) (by decide) (by decide) (by decide) (by decide)

/-! ## C8 — Update's frame: what a successful Update may touch -/

/-- `applyUpdate` never touches a row's id, createdAt or deletedAt. -/
theorem applyUpdate_preserves (id : Int) (b r : Book) :
    (BookRepository.applyUpdate id b r).id = r.id ∧
    (BookRepository.applyUpdate id b r).createdAt = r.createdAt ∧
    (BookRepository.applyUpdate id b r).deletedAt = r.deletedAt := by
  unfold BookRepository.applyUpdate
  split <;> exact ⟨rfl, rfl, rfl⟩

/-- `applyUpdate` leaves rows with a different id untouched. -/
theorem applyUpdate_of_ne (id : Int) (b r : Book) (h : ¬r.id = id) :
    BookRepository.applyUpdate id b r = r := by
  unfold BookRepository.applyUpdate
  rw [if_neg]
  simp [h]

/-- Unfolding a successful `BookService.Update`: the validation passed and
the Repository call succeeded on the timestamp-stamped input. -/
theorem service_update_ok {cache : Option CacheOracle} {now : Nat} {db : Db}
    {id : Int} {book res : Book} {db' : Db} {calls : List Call}
    (h : BookService.update cache now db id book = (.ok res, db', calls)) :
    ¬book.title = "" ∧ ¬book.author = "" ∧
    BookRepository.update db id { book with updatedAt := now, publishedAt := if book.publishedAt = 0 then now else book.publishedAt }
      = .ok (res, db') := by
  by_cases ht : book.title = ""
  · rw [BookService.update] at h
    simp [ht] at h
  by_cases ha : book.author = ""
  · rw [BookService.update] at h
    simp [ht, ha] at h
  refine ⟨ht, ha, ?_⟩
  rw [BookService.update, if_neg ht, if_neg ha] at h
  generalize hb : ({ book with updatedAt := now, publishedAt := if book.publishedAt = 0 then now else book.publishedAt } : Book) = b at h ⊢
  rcases hrep : BookRepository.update db id b with e | ⟨u, d2⟩ <;>
    rw [hrep] at h
  · simp at h
  · simp only [Prod.mk.injEq, Except.ok.injEq] at h
    rw [h.1, h.2.1]

/-- Unfolding a successful `BookRepository.Update`: the resulting rows are
the old rows with the six-field overwrite applied to the active target, and
the id counter is untouched. -/
theorem repo_update_ok {db : Db} {id : Int} {b res : Book} {db' : Db}
    (h : BookRepository.update db id b = .ok (res, db')) :
    db'.rows = db.rows.map (BookRepository.applyUpdate id b) ∧
    db'.nextId = db.nextId := by
  unfold BookRepository.update at h
  split at h
  · simp at h
  · split at h
    · simp at h
    · simp only [Except.ok.injEq, Prod.mk.injEq] at h
      rw [← h.2]
      exact ⟨rfl, rfl⟩

/-- C8: a successful `Update(id, fields)` changes only the title, author,
isbn, description, publishedAt and updatedAt of the active target row; its
id, createdAt and deletedAt are untouched, every other row is unchanged, and
no row is added or removed. -/
theorem update_frame (cache : Option CacheOracle) (now : Nat) (db : Db)
    (id : Int) (book res : Book) (db' : Db) (calls : List Call)
    (h : BookService.update cache now db id book = (.ok res, db', calls)) :
    db'.nextId = db.nextId ∧
    db'.rows.length = db.rows.length ∧
    (∀ r ∈ db.rows, ¬r.id = id → r ∈ db'.rows) ∧
    (∀ r' ∈ db'.rows, ∃ r ∈ db.rows,
      r'.id = r.id ∧ r'.createdAt = r.createdAt ∧ r'.deletedAt = r.deletedAt) ∧
    (∀ r' ∈ db'.rows, r'.id = id → r'.deletedAt = none →
      r'.title = book.title ∧ r'.author = book.author ∧
      r'.isbn = book.isbn ∧ r'.description = book.description ∧
      r'.publishedAt = (if book.publishedAt = 0 then now
                        else book.publishedAt) ∧
      r'.updatedAt = now) := by
  obtain ⟨ht, ha, hrep⟩ := service_update_ok h
  obtain ⟨hrows, hnext⟩ := repo_update_ok hrep
  refine ⟨hnext, ?_, ?_, ?_, ?_⟩
  · rw [hrows, List.length_map]
  · intro r hr hne
    rw [hrows, ← applyUpdate_of_ne id _ r hne]
    exact List.mem_map_of_mem _ hr
  · intro r' hr'
    rw [hrows] at hr'
    obtain ⟨r, hr, hfr⟩ := List.mem_map.mp hr'
    obtain ⟨h1, h2, h3⟩ := applyUpdate_preserves id _ r
    exact ⟨r, hr, by rw [← hfr]; exact h1, by rw [← hfr]; exact h2,
           by rw [← hfr]; exact h3⟩
  · intro r' hr' hid hdel
    rw [hrows] at hr'
    obtain ⟨r, hr, hfr⟩ := List.mem_map.mp hr'
    by_cases hg : (r.id == id && r.deletedAt.isNone) = true
    · rw [← hfr]
      unfold BookRepository.applyUpdate
      rw [if_pos hg]
      exact ⟨rfl, rfl, rfl, rfl, rfl, rfl⟩
    · exfalso
      have hfix : BookRepository.applyUpdate id
          { book with updatedAt := now, publishedAt := if book.publishedAt = 0 then now else book.publishedAt } r = r := by
        unfold BookRepository.applyUpdate
        rw [if_neg hg]
      rw [hfix] at hfr
      rw [← hfr] at hid hdel
      simp [hid, hdel] at hg

/-- A two-row store (one active, one soft-deleted) used by the Update
witnesses. -/
def dbTwoRows : Db :=
  { rows := [{ bookTAI with id := 1 }, { bookTAI with id := 2, isbn := "J", deletedAt := some 4 }],
    nextId := 3 }

/-- C8 witness: a concrete successful update of row 1 in `dbTwoRows`
satisfies the frame property. -/
theorem update_frame_witness :
    (BookService.update none 11 dbTwoRows 1 { bookTAI with title := "T2", isbn := "I2", publishedAt := 0 }
        = (.ok { bookTAI with id := 1, title := "T2", isbn := "I2", publishedAt := 11, updatedAt := 11 },
           { rows := [{ bookTAI with id := 1, title := "T2", isbn := "I2", publishedAt := 11, updatedAt := 11 }, { bookTAI with id := 2, isbn := "J", deletedAt := some 4 }], nextId := 3 },
           [.rUpdate 1 { bookTAI with title := "T2", isbn := "I2", publishedAt := 11, updatedAt := 11 }])) ∧
    ({ rows := [{ bookTAI with id := 1, title := "T2", isbn := "I2", publishedAt := 11, updatedAt := 11 }, { bookTAI with id := 2, isbn := "J", deletedAt := some 4 }], nextId := 3 } : Db).nextId
        = dbTwoRows.nextId ∧
    ({ rows := [{ bookTAI with id := 1, title := "T2", isbn := "I2", publishedAt := 11, updatedAt := 11 }, { bookTAI with id := 2, isbn := "J", deletedAt := some 4 }], nextId := 3 } : Db).rows.length
        = dbTwoRows.rows.length ∧
    (∀ r ∈ dbTwoRows.rows, ¬r.id = 1 →
      r ∈ ({ rows := [{ bookTAI with id := 1, title := "T2", isbn := "I2", publishedAt := 11, updatedAt := 11 }, { bookTAI with id := 2, isbn := "J", deletedAt := some 4 }], nextId := 3 } : Db).rows) ∧
    (∀ r' ∈ ({ rows := [{ bookTAI with id := 1, title := "T2", isbn := "I2", publishedAt := 11, updatedAt := 11 }, { bookTAI with id := 2, isbn := "J", deletedAt := some 4 }], nextId := 3 } : Db).rows,
      ∃ r ∈ dbTwoRows.rows,
        r'.id = r.id ∧ r'.createdAt = r.createdAt ∧
        r'.deletedAt = r.deletedAt) ∧
    (∀ r' ∈ ({ rows := [{ bookTAI with id := 1, title := "T2", isbn := "I2", publishedAt := 11, updatedAt := 11 }, { bookTAI with id := 2, isbn := "J", deletedAt := some 4 }], nextId := 3 } : Db).rows,
      r'.id = 1 → r'.deletedAt = none →
      r'.title = "T2" ∧ r'.author = "A" ∧ r'.isbn = "I2" ∧
      r'.description = "D" ∧ r'.publishedAt = (if (0 : Nat) = 0 then 11 else 0) ∧
      r'.updatedAt = 11) :=
  ⟨by decide,
    update_frame none 11 dbTwoRows 1
      { bookTAI with title := "T2", isbn := "I2", publishedAt := 0 }
      { bookTAI with id := 1, title := "T2", isbn := "I2", publishedAt := 11, updatedAt := 11 }
      { rows := [{ bookTAI with id := 1, title := "T2", isbn := "I2", publishedAt := 11, updatedAt := 11 }, { bookTAI with id := 2, isbn := "J", deletedAt := some 4 }], nextId := 3 }
      [.rUpdate 1 { bookTAI with title := "T2", isbn := "I2", publishedAt := 11, updatedAt := 11 }]
      (by decide)⟩

/-! ## C9 — cache key scheme and invalidation sets -/

/-- An author-filtered GetAll key never coincides with the unfiltered key
(their lengths differ). -/
theorem authorKey_ne_allKey (a : String) :
    "books:books:getall:author:" ++ a ≠ "books:books:getall:all" := by
  intro h
  have h2 := congrArg String.length h
  rw [String.length_append] at h2
  have e1 : "books:books:getall:author:".length = 26 := rfl
  have e2 : "books:books:getall:all".length = 22 := rfl
  omega

/-- An author-filtered GetAll key never coincides with a GetByID key (they
differ at character 15). -/
theorem authorKey_ne_byIdKey (a s : String) :
    "books:books:getall:author:" ++ a ≠ "books:books:getbyid:" ++ s := by
  intro h
  have h2 := congrArg (fun t => t.data[15]?) h
  simp only [String.data_append] at h2
  have e1 : ("books:books:getall:author:".data ++ a.data)[15]? = some 'a' :=
    rfl
  have e2 : ("books:books:getbyid:".data ++ s.data)[15]? = some 'b' := rfl
  rw [e1, e2] at h2
  exact absurd h2 (by decide)

/-- The cache keys `BookService.Create` deletes, for every outcome: the
unfiltered all-books key on success with a cache configured, nothing
otherwise. -/
theorem cacheDeletes_create (cache : Option CacheOracle) (now : Nat)
    (db : Db) (book : Book) :
    cacheDeletes (BookService.create cache now db book).2.2
      = match (BookService.create cache now db book).1, cache with
        | .ok _, some _ => [getAllCacheKey none]
        | _, _ => [] := by
  rcases hrep : BookRepository.create db
      { book with createdAt := now, updatedAt := now } with e | ⟨u, d2⟩ <;>
    cases cache <;> simp [BookService.create, hrep, cacheDeletes]

/-- The cache keys `BookService.Update` deletes, for every outcome: the id
key and the unfiltered all-books key on success with a cache configured,
nothing otherwise (in particular nothing on validation failure). -/
theorem cacheDeletes_update (cache : Option CacheOracle) (now : Nat)
    (db : Db) (id : Int) (book : Book) :
    cacheDeletes (BookService.update cache now db id book).2.2
      = match (BookService.update cache now db id book).1, cache with
        | .ok _, some _ => [getByIDCacheKey id, getAllCacheKey none]
        | _, _ => [] := by
  by_cases ht : book.title = ""
  · cases cache <;> simp [BookService.update, ht, cacheDeletes]
  by_cases ha : book.author = ""
  · cases cache <;> simp [BookService.update, ht, ha, cacheDeletes]
  rcases hrep : BookRepository.update db id
      { book with updatedAt := now, publishedAt := if book.publishedAt = 0 then now else book.publishedAt }
    with e | ⟨u, d2⟩ <;>
    cases cache <;> simp [BookService.update, ht, ha, hrep, cacheDeletes]

/-- The cache keys `BookService.Delete` deletes, for every outcome: the id
key and the unfiltered all-books key on success with a cache configured,
nothing otherwise. -/
theorem cacheDeletes_delete (cache : Option CacheOracle) (db : Db)
    (id : Int) (now : Nat) :
    cacheDeletes (BookService.delete cache db id now).2.2
      = match (BookService.delete cache db id now).1, cache with
        | .ok _, some _ => [getByIDCacheKey id, getAllCacheKey none]
        | _, _ => [] := by
  rcases hrep : BookRepository.delete db id now with e | d2 <;>
    cases cache <;> simp [BookService.delete, hrep, cacheDeletes]

/-- C9: the service derives cache keys exactly as `books:books:getbyid:<id>`,
`books:books:getall:all` and `books:books:getall:author:<author>`; a
successful Create deletes only the unfiltered all-books key, a successful
Update or Delete of `id` deletes exactly the id key and the unfiltered
all-books key, and no mutation — with any cache configuration and any
outcome — ever deletes an author-filtered key. -/
theorem cache_scheme_and_invalidations (c : CacheOracle)
    (cacheOpt : Option CacheOracle) (now : Nat) (db : Db) (book : Book)
    (id did : Int) (a : String) (ha : a ≠ "") :
    getByIDCacheKey id = "books:books:getbyid:" ++ toString id ∧
    getAllCacheKey none = "books:books:getall:all" ∧
    getAllCacheKey (some a) = "books:books:getall:author:" ++ a ∧
    (∀ res db' calls,
      BookService.create (some c) now db book = (.ok res, db', calls) →
      cacheDeletes calls = [getAllCacheKey none]) ∧
    (∀ res db' calls,
      BookService.update (some c) now db id book = (.ok res, db', calls) →
      cacheDeletes calls = [getByIDCacheKey id, getAllCacheKey none]) ∧
    (∀ db' calls,
      BookService.delete (some c) db did now = (.ok (), db', calls) →
      cacheDeletes calls = [getByIDCacheKey did, getAllCacheKey none]) ∧
    getAllCacheKey (some a)
        ∉ cacheDeletes (BookService.create cacheOpt now db book).2.2 ∧
    getAllCacheKey (some a)
        ∉ cacheDeletes (BookService.update cacheOpt now db id book).2.2 ∧
    getAllCacheKey (some a)
        ∉ cacheDeletes (BookService.delete cacheOpt db did now).2.2 := by
  have hkey : getAllCacheKey (some a) = "books:books:getall:author:" ++ a := by
    rw [getAllCacheKey]
    exact if_neg ha
  have hnotin : ∀ jd : Int,
      getAllCacheKey (some a) ∉ [getByIDCacheKey jd, getAllCacheKey none] := by
    intro jd
    rw [hkey]
    intro hmem
    rcases List.mem_cons.mp hmem with h1 | hmem2
    · exact authorKey_ne_byIdKey a (toString jd) h1
    · rcases List.mem_cons.mp hmem2 with h2 | h3
      · exact authorKey_ne_allKey a h2
      · exact List.not_mem_nil _ h3
  have hnotin1 : getAllCacheKey (some a) ∉ [getAllCacheKey none] := by
    rw [hkey]
    simp only [List.mem_singleton]
    exact authorKey_ne_allKey a
  refine ⟨rfl, rfl, hkey, ?_, ?_, ?_, ?_, ?_, ?_⟩
  · intro res db' calls h
    have hc : calls = (BookService.create (some c) now db book).2.2 := by
      rw [h]
    have hr : (BookService.create (some c) now db book).1 = .ok res := by
      rw [h]
    rw [hc, cacheDeletes_create, hr]
  · intro res db' calls h
    have hc : calls = (BookService.update (some c) now db id book).2.2 := by
      rw [h]
    have hr : (BookService.update (some c) now db id book).1 = .ok res := by
      rw [h]
    rw [hc, cacheDeletes_update, hr]
  · intro db' calls h
    have hc : calls = (BookService.delete (some c) db did now).2.2 := by
      rw [h]
    have hr : (BookService.delete (some c) db did now).1 = .ok () := by
      rw [h]
    rw [hc, cacheDeletes_delete, hr]
  · rw [cacheDeletes_create]
    rcases (BookService.create cacheOpt now db book).1 with e | u <;>
      cases cacheOpt <;> simp_all [hnotin1]
  · rw [cacheDeletes_update]
    rcases (BookService.update cacheOpt now db id book).1 with e | u <;>
      cases cacheOpt <;> first
        | exact List.not_mem_nil _
        | exact hnotin id
  · rw [cacheDeletes_delete]
    rcases (BookService.delete cacheOpt db did now).1 with e | u <;>
      cases cacheOpt <;> first
        | exact List.not_mem_nil _
        | exact hnotin did

/-- A cache whose every `Get` misses. -/
def missOracle : CacheOracle :=
  { getBook := fun _ => .error .cacheMiss,
    getList := fun _ => .error .cacheMiss }

/-- C9 witness: the key scheme and invalidation behaviour at a concrete
oracle, store, book, ids and the author "X". -/
theorem cache_scheme_and_invalidations_witness :
    getByIDCacheKey 1 = "books:books:getbyid:" ++ toString (1 : Int) ∧
    getAllCacheKey none = "books:books:getall:all" ∧
    getAllCacheKey (some "X") = "books:books:getall:author:" ++ "X" ∧
    (∀ res db' calls,
      BookService.create (some missOracle) 0 Db.empty bookTAI
          = (.ok res, db', calls) →
      cacheDeletes calls = [getAllCacheKey none]) ∧
    (∀ res db' calls,
      BookService.update (some missOracle) 0 Db.empty 1 bookTAI
          = (.ok res, db', calls) →
      cacheDeletes calls = [getByIDCacheKey 1, getAllCacheKey none]) ∧
    (∀ db' calls,
      BookService.delete (some missOracle) Db.empty 2 0
          = (.ok (), db', calls) →
      cacheDeletes calls = [getByIDCacheKey 2, getAllCacheKey none]) ∧
    getAllCacheKey (some "X")
        ∉ cacheDeletes (BookService.create none 0 Db.empty bookTAI).2.2 ∧
    getAllCacheKey (some "X")
        ∉ cacheDeletes (BookService.update none 0 Db.empty 1 bookTAI).2.2 ∧
    getAllCacheKey (some "X")
        ∉ cacheDeletes (BookService.delete none Db.empty 2 0).2.2 :=
  cache_scheme_and_invalidations missOracle none 0 Db.empty bookTAI 1 2 "X"
    (by decide)

/-! ## C3 — cache failures are transparent -/

/-- Whether an error kind originates in the Cache. -/
def isCacheErr : Err → Bool
  | .cacheMiss => true
  | .cacheFailure => true
  | _ => false

/-- `BookRepository.GetByID` only fails with NotFound. -/
theorem repo_getByID_err {db : Db} {id : Int} {e : Err}
    (h : BookRepository.getByID db id = .error e) : e = .bookNotFound := by
  unfold BookRepository.getByID at h
  split at h
  · simp at h
  · simp only [Except.error.injEq] at h
    exact h.symm

/-- `BookRepository.Create` only fails with AlreadyExists. -/
theorem repo_create_err {db : Db} {book : Book} {e : Err}
    (h : BookRepository.create db book = .error e) :
    e = .bookAlreadyExists := by
  unfold BookRepository.create at h
  split at h
  · simp only [Except.error.injEq] at h
    exact h.symm
  · simp at h

/-- `BookRepository.Update` only fails with NotFound or AlreadyExists. -/
theorem repo_update_err {db : Db} {id : Int} {b : Book} {e : Err}
    (h : BookRepository.update db id b = .error e) :
    e = .bookNotFound ∨ e = .bookAlreadyExists := by
  unfold BookRepository.update at h
  split at h
  · rename_i e2 hg
    simp only [Except.error.injEq] at h
    exact Or.inl (h ▸ repo_getByID_err hg)
  · split at h
    · simp only [Except.error.injEq] at h
      exact Or.inr h.symm
    · simp at h

/-- `BookRepository.Delete` only fails with NotFound. -/
theorem repo_delete_err {db : Db} {id : Int} {now : Nat} {e : Err}
    (h : BookRepository.delete db id now = .error e) : e = .bookNotFound := by
  unfold BookRepository.delete at h
  split at h
  · rename_i e2 hg
    simp only [Except.error.injEq] at h
    exact h ▸ repo_getByID_err hg
  · simp at h

/-- C3: whenever every Cache `Get` misses or fails — or no cache is
configured — each of the five service operations returns exactly what the
Repository path alone returns (mutations do so for every cache, since they
never consult the cache); and under ANY cache behaviour and outcome, no
operation ever returns a Cache-originated error (CacheMiss/CacheFailure) to
the caller. -/
theorem cache_failures_transparent (c : CacheOracle) (db : Db)
    (id did uid : Int) (author : Option String) (limit offset : Int)
    (now : Nat) (book ubook : Book)
    (hB : ∀ k b, c.getBook k ≠ .ok b)
    (hL : ∀ k l, c.getList k ≠ .ok l) :
    ((BookService.getByID (some c) db id).1 = BookRepository.getByID db id ∧
      (BookService.getByID none db id).1 = BookRepository.getByID db id) ∧
    ((BookService.getAll (some c) db author limit offset).1
        = .ok (BookRepository.getAll db author limit offset) ∧
      (BookService.getAll none db author limit offset).1
        = .ok (BookRepository.getAll db author limit offset)) ∧
    (∀ c2 : CacheOracle,
      (BookService.create (some c2) now db book).1
          = (BookService.create none now db book).1 ∧
      (BookService.create (some c2) now db book).2.1
          = (BookService.create none now db book).2.1) ∧
    (∀ c2 : CacheOracle,
      (BookService.update (some c2) now db uid ubook).1
          = (BookService.update none now db uid ubook).1 ∧
      (BookService.update (some c2) now db uid ubook).2.1
          = (BookService.update none now db uid ubook).2.1) ∧
    (∀ c2 : CacheOracle,
      (BookService.delete (some c2) db did now).1
          = (BookService.delete none db did now).1 ∧
      (BookService.delete (some c2) db did now).2.1
          = (BookService.delete none db did now).2.1) ∧
    (∀ (cache : Option CacheOracle) (e : Err),
      (BookService.getByID cache db id).1 = .error e → isCacheErr e = false) ∧
    (∀ (cache : Option CacheOracle) (e : Err),
      (BookService.getAll cache db author limit offset).1 = .error e →
      isCacheErr e = false) ∧
    (∀ (cache : Option CacheOracle) (e : Err),
      (BookService.create cache now db book).1 = .error e →
      isCacheErr e = false) ∧
    (∀ (cache : Option CacheOracle) (e : Err),
      (BookService.update cache now db uid ubook).1 = .error e →
      isCacheErr e = false) ∧
    (∀ (cache : Option CacheOracle) (e : Err),
      (BookService.delete cache db did now).1 = .error e →
      isCacheErr e = false) := by
  refine ⟨⟨?_, ?_⟩, ⟨?_, ?_⟩, ?_, ?_, ?_, ?_, ?_, ?_, ?_, ?_⟩
  · rcases hg : c.getBook (getByIDCacheKey id) with e | b
    · rcases hr : BookRepository.getByID db id with e2 | b <;>
        simp [BookService.getByID, hg, hr]
    · exact absurd hg (hB _ b)
  · rcases hr : BookRepository.getByID db id with e | b <;>
      simp [BookService.getByID, hr]
  · by_cases hc : limit = 0 ∧ offset = 0
    · rcases hg : c.getList (getAllCacheKey author) with e | l
      · simp [BookService.getAll, hg, hc.1, hc.2]
      · exact absurd hg (hL _ l)
    · simp only [BookService.getAll]
      rw [if_neg (by simpa using hc)]
  · simp [BookService.getAll]
  · intro c2
    rcases hr : BookRepository.create db
        { book with createdAt := now, updatedAt := now } with e | ⟨u, d2⟩ <;>
      simp [BookService.create, hr]
  · intro c2
    by_cases ht : ubook.title = ""
    · simp [BookService.update, ht]
    by_cases ha2 : ubook.author = ""
    · simp [BookService.update, ht, ha2]
    rcases hr : BookRepository.update db uid
        { ubook with updatedAt := now, publishedAt := if ubook.publishedAt = 0 then now else ubook.publishedAt }
      with e | ⟨u, d2⟩ <;>
      simp [BookService.update, ht, ha2, hr]
  · intro c2
    rcases hr : BookRepository.delete db did now with e | d2 <;>
      simp [BookService.delete, hr]
  · intro cache e h
    rcases cache with _ | c2
    · rcases hr : BookRepository.getByID db id with e2 | b <;>
        simp [BookService.getByID, hr] at h
      have he2 := repo_getByID_err hr
      subst he2
      rw [← h]; rfl
    · rcases hg : c2.getBook (getByIDCacheKey id) with e2 | b
      · rcases hr : BookRepository.getByID db id with e3 | b <;>
          simp [BookService.getByID, hg, hr] at h
        have he3 := repo_getByID_err hr
        subst he3
        rw [← h]; rfl
      · simp [BookService.getByID, hg] at h
  · intro cache e h
    rcases cache with _ | c2
    · simp [BookService.getAll] at h
    · by_cases hc : limit = 0 ∧ offset = 0
      · rcases hg : c2.getList (getAllCacheKey author) with e2 | l <;>
          simp [BookService.getAll, hg, hc.1, hc.2] at h
      · simp only [BookService.getAll] at h
        rw [if_neg (by simpa using hc)] at h
        simp at h
  · intro cache e h
    rcases hr : BookRepository.create db
        { book with createdAt := now, updatedAt := now } with e2 | ⟨u, d2⟩ <;>
      simp [BookService.create, hr] at h
    have he2 := repo_create_err hr
    subst he2
    rw [← h]; rfl
  · intro cache e h
    by_cases ht : ubook.title = ""
    · simp [BookService.update, ht] at h
      rw [← h]; rfl
    by_cases ha2 : ubook.author = ""
    · simp [BookService.update, ht, ha2] at h
      rw [← h]; rfl
    rcases hr : BookRepository.update db uid
        { ubook with updatedAt := now, publishedAt := if ubook.publishedAt = 0 then now else ubook.publishedAt }
      with e2 | ⟨u, d2⟩ <;>
      simp [BookService.update, ht, ha2, hr] at h
    rcases repo_update_err hr with he | he <;> subst he <;>
      (rw [← h]; rfl)
  · intro cache e h
    rcases hr : BookRepository.delete db did now with e2 | d2 <;>
      simp [BookService.delete, hr] at h
    have he2 := repo_delete_err hr
    subst he2
    rw [← h]; rfl

/-- C3 witness: transparency at the all-miss oracle, the empty store and
concrete arguments. -/
theorem cache_failures_transparent_witness :
    ((BookService.getByID (some missOracle) Db.empty 1).1
        = BookRepository.getByID Db.empty 1 ∧
      (BookService.getByID none Db.empty 1).1
        = BookRepository.getByID Db.empty 1) ∧
    ((BookService.getAll (some missOracle) Db.empty none 0 0).1
        = .ok (BookRepository.getAll Db.empty none 0 0) ∧
      (BookService.getAll none Db.empty none 0 0).1
        = .ok (BookRepository.getAll Db.empty none 0 0)) ∧
    (∀ c2 : CacheOracle,
      (BookService.create (some c2) 0 Db.empty bookTAI).1
          = (BookService.create none 0 Db.empty bookTAI).1 ∧
      (BookService.create (some c2) 0 Db.empty bookTAI).2.1
          = (BookService.create none 0 Db.empty bookTAI).2.1) ∧
    (∀ c2 : CacheOracle,
      (BookService.update (some c2) 0 Db.empty 3 bookTAI).1
          = (BookService.update none 0 Db.empty 3 bookTAI).1 ∧
      (BookService.update (some c2) 0 Db.empty 3 bookTAI).2.1
          = (BookService.update none 0 Db.empty 3 bookTAI).2.1) ∧
    (∀ c2 : CacheOracle,
      (BookService.delete (some c2) Db.empty 2 0).1
          = (BookService.delete none Db.empty 2 0).1 ∧
      (BookService.delete (some c2) Db.empty 2 0).2.1
          = (BookService.delete none Db.empty 2 0).2.1) ∧
    (∀ (cache : Option CacheOracle) (e : Err),
      (BookService.getByID cache Db.empty 1).1 = .error e →
      isCacheErr e = false) ∧
    (∀ (cache : Option CacheOracle) (e : Err),
      (BookService.getAll cache Db.empty none 0 0).1 = .error e →
      isCacheErr e = false) ∧
    (∀ (cache : Option CacheOracle) (e : Err),
      (BookService.create cache 0 Db.empty bookTAI).1 = .error e →
      isCacheErr e = false) ∧
    (∀ (cache : Option CacheOracle) (e : Err),
      (BookService.update cache 0 Db.empty 3 bookTAI).1 = .error e →
      isCacheErr e = false) ∧
    (∀ (cache : Option CacheOracle) (e : Err),
      (BookService.delete cache Db.empty 2 0).1 = .error e →
      isCacheErr e = false) :=
  cache_failures_transparent missOracle Db.empty 1 2 3 none 0 0 0
    bookTAI bookTAI
    (fun _ _ h => Except.noConfusion h)
    (fun _ _ h => Except.noConfusion h)

/-! ## C5 — controller pagination semantics -/

/-- A recognized `page`/`limit` query parameter is strictly positive. -/
theorem parseQueryPositive_pos {s : String} {n : Int}
    (h : parseQueryPositive s = some n) : 0 < n := by
  unfold parseQueryPositive at h
  split at h
  · simp at h
  · split at h
    · rename_i m hm
      split at h
      · rename_i hpos
        injection h with h2
        omega
      · simp at h
    · simp at h

/-- C5: the controller treats a missing, non-numeric or non-positive page or
limit as absent; with no limit it returns every matching active row in
ascending id order (page ignored, no metadata echoed); with limit `L` and no
page it returns the first `L` rows (limit echoed); with page `P` and limit
`L` it returns exactly the rows at indices `[(P−1)·L, P·L)` of the matching
sequence (both echoed), which is empty — not an error — when the offset is
past the end.  Invalid parameter strings are never an error: concrete
non-numeric and non-positive inputs parse as absent. -/
theorem controller_getAll_pagination (db : Db)
    (authorQ pageQ limitQ : String) :
    (parseQueryPositive limitQ = none →
      BookController.getAll none db authorQ pageQ limitQ
        = .ok (sortById (db.rows.filter (matchesFilter (if authorQ = "" then none else some authorQ))), none, none)) ∧
    (∀ L : Int, parseQueryPositive limitQ = some L →
      parseQueryPositive pageQ = none →
      BookController.getAll none db authorQ pageQ limitQ
        = .ok ((sortById (db.rows.filter (matchesFilter (if authorQ = "" then none else some authorQ)))).take L.toNat, none, some L)) ∧
    (∀ L P : Int, parseQueryPositive limitQ = some L →
      parseQueryPositive pageQ = some P →
      BookController.getAll none db authorQ pageQ limitQ
        = .ok (((sortById (db.rows.filter (matchesFilter (if authorQ = "" then none else some authorQ)))).drop ((P - 1) * L).toNat).take L.toNat, some P, some L)) ∧
    (∀ L P : Int, parseQueryPositive limitQ = some L →
      parseQueryPositive pageQ = some P →
      (sortById (db.rows.filter (matchesFilter (if authorQ = "" then none else some authorQ)))).length ≤ ((P - 1) * L).toNat →
      BookController.getAll none db authorQ pageQ limitQ
        = .ok ([], some P, some L)) ∧
    (parseQueryPositive "abc" = none ∧ parseQueryPositive "-3" = none ∧
      parseQueryPositive "0" = none ∧ parseQueryPositive "" = none) := by
  have hmain : ∀ L P : Int, parseQueryPositive limitQ = some L →
      parseQueryPositive pageQ = some P →
      BookController.getAll none db authorQ pageQ limitQ
        = .ok (((sortById (db.rows.filter (matchesFilter (if authorQ = "" then none else some authorQ)))).drop ((P - 1) * L).toNat).take L.toNat, some P, some L) := by
    intro L P hL hP
    have hLpos : 0 < L := parseQueryPositive_pos hL
    have hPpos : 0 < P := parseQueryPositive_pos hP
    by_cases hoff : (0 : Int) < (P - 1) * L
    · simp [BookController.getAll, hL, hP, BookService.getAll,
        BookRepository.getAll, hLpos, hoff]
    · have hoff0 : (P - 1) * L = 0 := by
        have hnn : 0 ≤ (P - 1) * L :=
          Int.mul_nonneg (by omega) (by omega)
        omega
      simp [BookController.getAll, hL, hP, BookService.getAll,
        BookRepository.getAll, hLpos, hoff0]
  refine ⟨?_, ?_, hmain, ?_, by decide, by decide, by decide, by decide⟩
  · intro hlim
    rcases hp : parseQueryPositive pageQ with - | P <;>
      simp [BookController.getAll, hlim, hp, BookService.getAll,
        BookRepository.getAll]
  · intro L hL hp
    have hLpos : 0 < L := parseQueryPositive_pos hL
    simp [BookController.getAll, hL, hp, BookService.getAll,
      BookRepository.getAll, hLpos]
  · intro L P hL hP hpast
    rw [hmain L P hL hP, List.drop_eq_nil_of_le hpast, List.take_nil]

/-- Four active rows with ids 1..4, for the pagination witness. -/
def dbFour : Db :=
  { rows := [{ bookTAI with id := 1 }, { bookTAI with id := 2, isbn := "I2" }, { bookTAI with id := 3, isbn := "I3" }, { bookTAI with id := 4, isbn := "I4" }],
    nextId := 5 }

/-- C5 witness: concrete requests against the four-row store — page=2 with
limit=3, an ignored non-numeric page without limit, and limit=2 alone. -/
theorem controller_getAll_pagination_witness :
    BookController.getAll none dbFour "" "2" "3"
        = .ok (((sortById (dbFour.rows.filter (matchesFilter (if ("" : String) = "" then none else some "")))).drop (((2 : Int) - 1) * 3).toNat).take ((3 : Int)).toNat, some 2, some 3) ∧
    BookController.getAll none dbFour "" "abc" ""
        = .ok (sortById (dbFour.rows.filter (matchesFilter (if ("" : String) = "" then none else some ""))), none, none) ∧
    BookController.getAll none dbFour "" "" "2"
        = .ok ((sortById (dbFour.rows.filter (matchesFilter (if ("" : String) = "" then none else some "")))).take ((2 : Int)).toNat, none, some 2) :=
  ⟨(controller_getAll_pagination dbFour "" "2" "3").2.2.1 3 2
      (by decide) (by decide),
    (controller_getAll_pagination dbFour "" "abc" "").1 (by decide),
    (controller_getAll_pagination dbFour "" "" "2").2.1 2
      (by decide) (by decide)⟩

/-! ## C6 — deletion is terminal -/

/-- Unfolding a successful `BookRepository.Create`: the row is appended with
the next id and an absent `deletedAt`, and the counter advances. -/
theorem repo_create_ok {db : Db} {bk u : Book} {d2 : Db}
    (h : BookRepository.create db bk = .ok (u, d2)) :
    d2.rows = db.rows ++ [{ bk with id := db.nextId, deletedAt := none }] ∧
    d2.nextId = db.nextId + 1 := by
  unfold BookRepository.create at h
  split at h
  · simp at h
  · simp only [Except.ok.injEq, Prod.mk.injEq] at h
    rw [← h.2]
    exact ⟨rfl, rfl⟩

/-- Unfolding a successful `BookRepository.Delete`: only the active row with
the target id gets `deletedAt` stamped; the counter is untouched. -/
theorem repo_delete_ok {db : Db} {id : Int} {now : Nat} {d2 : Db}
    (h : BookRepository.delete db id now = .ok d2) :
    d2.rows = db.rows.map (fun r =>
      if r.id == id && r.deletedAt.isNone then { r with deletedAt := some now }
      else r) ∧
    d2.nextId = db.nextId := by
  unfold BookRepository.delete at h
  split at h
  · simp at h
  · simp only [Except.ok.injEq] at h
    rw [← h]
    exact ⟨rfl, rfl⟩

/-- Read operations never change the store. -/
theorem stepDb_read (db : Db) (c : Option CacheOracle) (id limit offset : Int)
    (author : Option String) :
    (BookService.getByID c db id).2.1 = db ∧
    (BookService.getAll c db author limit offset).2.1 = db := by
  constructor
  · rcases c with _ | c2
    · rcases hr : BookRepository.getByID db id with e | b <;>
        simp [BookService.getByID, hr]
    · rcases hg : c2.getBook (getByIDCacheKey id) with e | b
      · rcases hr : BookRepository.getByID db id with e2 | b <;>
          simp [BookService.getByID, hg, hr]
      · simp [BookService.getByID, hg]
  · rcases c with _ | c2
    · simp [BookService.getAll]
    · by_cases hc : limit = 0 ∧ offset = 0
      · rcases hg : c2.getList (getAllCacheKey author) with e | l <;>
          simp [BookService.getAll, hg, hc.1, hc.2]
      · simp only [BookService.getAll]
        rw [if_neg (by simpa using hc)]

/-- A soft-deleted row survives every single service operation unchanged:
Update and Delete touch only rows whose `deletedAt` is absent, and Create
only appends. -/
theorem stepDb_preserves_deleted (db : Db) (op : Op) {r : Book}
    (hr : r ∈ db.rows) (hdel : r.deletedAt ≠ none) :
    r ∈ (stepDb db op).rows := by
  have hguard : ∀ jd : Int, ¬((r.id == jd && r.deletedAt.isNone) = true) := by
    intro jd
    simp [hdel]
  cases op with
  | create c now b =>
    rcases hrep : BookRepository.create db
        { b with createdAt := now, updatedAt := now } with e | ⟨u, d2⟩ <;>
      simp [stepDb, BookService.create, hrep]
    · exact hr
    · rw [(repo_create_ok hrep).1]
      exact List.mem_append_left _ hr
  | getById c id => rw [stepDb, (stepDb_read db c id 0 0 none).1]; exact hr
  | getAll c author limit offset =>
    rw [stepDb, (stepDb_read db c 0 limit offset author).2]
    exact hr
  | update c now id b =>
    dsimp [stepDb]
    by_cases ht : b.title = ""
    · simp [BookService.update, ht]
      exact hr
    by_cases ha : b.author = ""
    · simp [BookService.update, ht, ha]
      exact hr
    rcases hrep : BookRepository.update db id
        { b with updatedAt := now, publishedAt := if b.publishedAt = 0 then now else b.publishedAt }
      with e | ⟨u, d2⟩ <;>
      simp [BookService.update, ht, ha, hrep]
    · exact hr
    · rw [(repo_update_ok hrep).1]
      have hfix : BookRepository.applyUpdate id
          { b with updatedAt := now, publishedAt := if b.publishedAt = 0 then now else b.publishedAt } r = r := by
        unfold BookRepository.applyUpdate
        rw [if_neg (hguard id)]
      rw [← hfix]
      exact List.mem_map_of_mem _ hr
  | delete c now id =>
    rcases hrep : BookRepository.delete db id now with e | d2 <;>
      simp [stepDb, BookService.delete, hrep]
    · exact hr
    · rw [(repo_delete_ok hrep).1]
      have hfix : (if r.id == id && r.deletedAt.isNone then { r with deletedAt := some now } else r) = r := by
        rw [if_neg (hguard id)]
      rw [← hfix]
      exact List.mem_map_of_mem _ hr

/-- The store invariant: row ids are pairwise distinct and below the
auto-increment counter. -/
def Inv (db : Db) : Prop :=
  (db.rows.map Book.id).Nodup ∧ ∀ r ∈ db.rows, r.id < db.nextId

/-- Every service operation preserves the store invariant. -/
theorem inv_stepDb (db : Db) (op : Op) (h : Inv db) : Inv (stepDb db op) := by
  cases op with
  | create c now b =>
    rcases hrep : BookRepository.create db
        { b with createdAt := now, updatedAt := now } with e | ⟨u, d2⟩ <;>
      simp [stepDb, BookService.create, hrep]
    · exact h
    · obtain ⟨hrows, hnext⟩ := repo_create_ok hrep
      constructor
      · rw [hrows, List.map_append]
        refine List.Nodup.append h.1 (List.nodup_singleton _) ?_
        intro a ha hb
        simp only [List.map_cons, List.map_nil, List.mem_singleton] at hb
        obtain ⟨r0, hr0, hid0⟩ := List.mem_map.mp ha
        have hb2 : a = db.nextId := hb
        have := h.2 r0 hr0
        omega
      · intro r0 hr0
        rw [hrows] at hr0
        rw [hnext]
        rcases List.mem_append.mp hr0 with hin | hin
        · have := h.2 r0 hin
          omega
        · simp only [List.mem_singleton] at hin
          have hid0 : r0.id = db.nextId := by rw [hin]
          omega
  | getById c id => rw [stepDb, (stepDb_read db c id 0 0 none).1]; exact h
  | getAll c author limit offset =>
    rw [stepDb, (stepDb_read db c 0 limit offset author).2]
    exact h
  | update c now id b =>
    dsimp [stepDb]
    by_cases ht : b.title = ""
    · simp [BookService.update, ht]
      exact h
    by_cases ha : b.author = ""
    · simp [BookService.update, ht, ha]
      exact h
    rcases hrep : BookRepository.update db id
        { b with updatedAt := now, publishedAt := if b.publishedAt = 0 then now else b.publishedAt }
      with e | ⟨u, d2⟩ <;>
      simp [BookService.update, ht, ha, hrep]
    · exact h
    · obtain ⟨hrows, hnext⟩ := repo_update_ok hrep
      constructor
      · rw [hrows, List.map_map]
        have hcg : db.rows.map (Book.id ∘ BookRepository.applyUpdate id { b with updatedAt := now, publishedAt := if b.publishedAt = 0 then now else b.publishedAt })
            = db.rows.map Book.id :=
          List.map_congr_left (fun r0 _ =>
            (applyUpdate_preserves id { b with updatedAt := now, publishedAt := if b.publishedAt = 0 then now else b.publishedAt } r0).1)
        rw [hcg]
        exact h.1
      · intro r0 hr0
        rw [hrows] at hr0
        rw [hnext]
        obtain ⟨r1, hr1, hfr⟩ := List.mem_map.mp hr0
        have hid1 : r0.id = r1.id := by
          rw [← hfr]
          exact (applyUpdate_preserves id { b with updatedAt := now, publishedAt := if b.publishedAt = 0 then now else b.publishedAt } r1).1
        rw [hid1]
        exact h.2 r1 hr1
  | delete c now id =>
    rcases hrep : BookRepository.delete db id now with e | d2 <;>
      simp [stepDb, BookService.delete, hrep]
    · exact h
    · obtain ⟨hrows, hnext⟩ := repo_delete_ok hrep
      have hidf : ∀ r1 : Book,
          (if r1.id == id && r1.deletedAt.isNone then { r1 with deletedAt := some now } else r1).id = r1.id := by
        intro r1
        split <;> rfl
      constructor
      · rw [hrows, List.map_map]
        have : db.rows.map (Book.id ∘ fun r1 => if r1.id == id && r1.deletedAt.isNone then { r1 with deletedAt := some now } else r1)
            = db.rows.map Book.id :=
          List.map_congr_left (fun r0 _ => hidf r0)
        rw [this]
        exact h.1
      · intro r0 hr0
        rw [hrows] at hr0
        rw [hnext]
        obtain ⟨r1, hr1, hfr⟩ := List.mem_map.mp hr0
        have hid1 : r0.id = r1.id := by
          rw [← hfr]
          exact hidf r1
        rw [hid1]
        exact h.2 r1 hr1

/-- A soft-deleted row survives every sequence of service operations. -/
theorem runOps_preserves_deleted (ops : List Op) (db : Db) {r : Book}
    (hr : r ∈ db.rows) (hdel : r.deletedAt ≠ none) :
    r ∈ (runOps db ops).rows := by
  induction ops generalizing db with
  | nil => exact hr
  | cons op rest ih =>
    exact ih (stepDb db op) (stepDb_preserves_deleted db op hr hdel)

/-- The store invariant holds along every run. -/
theorem inv_runOps (ops : List Op) (db : Db) (h : Inv db) :
    Inv (runOps db ops) := by
  induction ops generalizing db with
  | nil => exact h
  | cons op rest ih => exact ih (stepDb db op) (inv_stepDb db op h)

/-- C6: in every state reachable from the empty store by a sequence of
service operations, a row whose `deletedAt` is set survives every further
sequence of operations completely unchanged, and it remains the unique row
with its id: deletion is terminal and no undelete path exists. -/
theorem deleted_is_terminal (ops tr2 : List Op) (r : Book)
    (hr : r ∈ (runOps Db.empty ops).rows) (hdel : r.deletedAt ≠ none) :
    r ∈ (runOps (runOps Db.empty ops) tr2).rows ∧
    ∀ r' ∈ (runOps (runOps Db.empty ops) tr2).rows, r'.id = r.id → r' = r := by
  have hinv : Inv (runOps (runOps Db.empty ops) tr2) :=
    inv_runOps tr2 _ (inv_runOps ops Db.empty ⟨List.nodup_nil, by simp [Db.empty]⟩)
  have hmem : r ∈ (runOps (runOps Db.empty ops) tr2).rows :=
    runOps_preserves_deleted tr2 _ hr hdel
  refine ⟨hmem, fun r' hr' hid => ?_⟩
  exact List.inj_on_of_nodup_map hinv.1 hr' hmem hid

/-- C6 witness: create a record, delete it, then run an update and another
create; the soft-deleted row is still present, unchanged and unique. -/
theorem deleted_is_terminal_witness :
    ({ bookTAI with id := 1, createdAt := 1, updatedAt := 1, deletedAt := some 2 } : Book)
        ∈ (runOps Db.empty [Op.create none 1 bookTAI, Op.delete none 2 1]).rows ∧
    (({ bookTAI with id := 1, createdAt := 1, updatedAt := 1, deletedAt := some 2 } : Book).deletedAt ≠ none) ∧
    ({ bookTAI with id := 1, createdAt := 1, updatedAt := 1, deletedAt := some 2 } : Book)
        ∈ (runOps (runOps Db.empty [Op.create none 1 bookTAI, Op.delete none 2 1]) [Op.update none 3 1 { bookTAI with title := "T2" }, Op.create none 4 { bookTAI with isbn := "I9" }]).rows ∧
    ∀ r' ∈ (runOps (runOps Db.empty [Op.create none 1 bookTAI, Op.delete none 2 1]) [Op.update none 3 1 { bookTAI with title := "T2" }, Op.create none 4 { bookTAI with isbn := "I9" }]).rows,
      r'.id = ({ bookTAI with id := 1, createdAt := 1, updatedAt := 1, deletedAt := some 2 } : Book).id →
      r' = { bookTAI with id := 1, createdAt := 1, updatedAt := 1, deletedAt := some 2 } :=
  ⟨by decide, by decide,
    (deleted_is_terminal [Op.create none 1 bookTAI, Op.delete none 2 1]
      [Op.update none 3 1 { bookTAI with title := "T2" }, Op.create none 4 { bookTAI with isbn := "I9" }]
      { bookTAI with id := 1, createdAt := 1, updatedAt := 1, deletedAt := some 2 }
      (by decide) (by decide)).1,
    (deleted_is_terminal [Op.create none 1 bookTAI, Op.delete none 2 1]
      [Op.update none 3 1 { bookTAI with title := "T2" }, Op.create none 4 { bookTAI with isbn := "I9" }]
      { bookTAI with id := 1, createdAt := 1, updatedAt := 1, deletedAt := some 2 }
      (by decide) (by decide)).2⟩

end Books
